import Mathlib

/-!
SensorDataProcessor: per-sensor temperature statistics.

A shallow embedding of `src/SensorDataProcessor.cpp` (class `TDP::Sensor` and the
ingestion and report loops of `main`), followed by theorems about it.

Modelling choices
* A `float` that holds a finite number is the rational `ℚ` it denotes; a `float` or
  `double` that holds an infinity or a NaN is `none`.
* Every arithmetic operation of the source is rounded as the hardware rounds it: the
  operations on `float` to IEEE 754 binary32, the operations on `double` to binary64, both
  to the nearest value with ties to the even one (`binary32`, `binary64` below; each
  `float` operation is rounded on its own, as on x86-64).
* `std::vector<float>` is a `List ℚ`; an iterator is a position `Nat`, `begin()` is `0`
  and `end()` is the length.
* `size_t` arithmetic that can wrap is written with an explicit `% 2 ^ 64`.
* The loop counters `count` and `maxCount` (`int` in the source) are `Nat`: they never
  exceed the number of readings.
* An operation that has no number as result returns `Except.error` with the fault that
  occurred.
-/

namespace TDP

/-! The arithmetic of the types `float` and `double`. It belongs to the language, not to
the repository, and is written here from IEEE 754. -/

/-- The number `⌊log₂ n⌋` for `0 < n ≤ fuel`, by repeated halving. -/
def natLog2 : ℕ → ℕ → ℕ
  | 0, _ => 0
  | fuel + 1, n => if n < 2 then 0 else natLog2 fuel (n / 2) + 1

/-- The exponent `⌊log₂ |x|⌋` of the binade of a non-zero `x`. -/
def floorLog2 (x : ℚ) : ℤ :=
  let d : ℤ := (natLog2 x.num.natAbs x.num.natAbs : ℤ) - (natLog2 x.den x.den : ℤ)
  if (2 : ℚ) ^ d ≤ |x| then d else d - 1

/-- The nearest integer, a tie going to the even one. -/
def roundTiesToEven (x : ℚ) : ℤ :=
  if x - ⌊x⌋ < 1 / 2 then ⌊x⌋
  else if 1 / 2 < x - ⌊x⌋ then ⌊x⌋ + 1
  else if ⌊x⌋ % 2 = 0 then ⌊x⌋ else ⌊x⌋ + 1

/-- Rounding of the exact result `x` of an operation to the binary format with `prec`
significand bits, least positive value `2 ^ emin` and finite values below `2 ^ emax`: the
nearest value of the format, ties to even; `none` when the result overflows to an
infinity. -/
def roundBinary (prec : ℕ) (emin emax : ℤ) (x : ℚ) : Option ℚ :=
  let e := max (floorLog2 x - ((prec : ℤ) - 1)) emin
  let y := (roundTiesToEven (x / 2 ^ e) : ℚ) * 2 ^ e
  if |y| < 2 ^ emax then some y else none

/-- Rounding to `float` (IEEE 754 binary32). -/
def binary32 (x : ℚ) : Option ℚ :=
  roundBinary 24 (-149) 128 x

/-- Rounding to `double` (IEEE 754 binary64). -/
def binary64 (x : ℚ) : Option ℚ :=
  roundBinary 53 (-1074) 1024 x

/-- The rational `x` is a value of the type `float`. -/
abbrev isBinary32 (x : ℚ) : Prop :=
  binary32 x = some x

/-- The `float` addition `a + b`, `a` being a `float` variable that may hold an infinity
or a NaN. -/
def float32Add (a : Option ℚ) (b : ℚ) : Option ℚ :=
  a.bind fun x => binary32 (x + b)

/-- The faults the arithmetic of `Sensor` can run into; the source raises none of them,
they mark a result that is not a number. -/
inductive Fault where
  | divisionByZero
  | indexOutOfRange
  | notFinite
  deriving DecidableEq, Repr

/-- Equality of results is decidable, so that a result can be compared by evaluation. -/
instance : DecidableEq (Except Fault ℚ)
  | .ok a, .ok b => if h : a = b then isTrue (by rw [h]) else isFalse (by simp [h])
  | .error a, .error b => if h : a = b then isTrue (by rw [h]) else isFalse (by simp [h])
  | .ok _, .error _ => isFalse (by simp)
  | .error _, .ok _ => isFalse (by simp)

/-- A `float` that a method returns: the number it holds, or the fault `notFinite` when it
holds an infinity or a NaN. -/
def floatResult : Option ℚ → Except Fault ℚ
  | some x => .ok x
  | none => .error .notFinite

/-- Class `Sensor` (lines 130-253): the data members. -/
structure Sensor where
  _id : String
  _totalTemperature : Option ℚ
  _temperatureReadings : List ℚ
  _sorted : Bool
  deriving DecidableEq

namespace Sensor

/-- Constructor `Sensor(std::string id)` (lines 134-138). -/
def new (id : String) : Sensor :=
  { _id := id, _sorted := false, _totalTemperature := some 0, _temperatureReadings := [] }

/-- Method `addTemperatureReading` (lines 151-155). -/
def addTemperatureReading (s : Sensor) (iTemperature : ℚ) : Sensor :=
  { s with
    _totalTemperature := float32Add s._totalTemperature iTemperature
    _temperatureReadings := s._temperatureReadings ++ [iTemperature] }

/-- The call `std::sort(begin, end)` on a vector of readings: the ascending rearrangement. -/
def stdSort (r : List ℚ) : List ℚ :=
  r.insertionSort (· ≤ ·)

/-- Method `sortData` (lines 164-171). -/
def sortData (s : Sensor) : Sensor :=
  if !s._sorted then
    { s with _temperatureReadings := stdSort s._temperatureReadings, _sorted := true }
  else s

/-- The expression `std::floor((x * 100) + .5) / 100` of lines 192 and 204, returned as a
`float`: the product `x * 100` is a `float` product, the addition of `.5` and the division
by `100` are `double` operations, and the quotient is narrowed to `float` on return. -/
def round2 (x : ℚ) : Option ℚ :=
  (binary32 (x * 100)).bind fun product =>
  (binary64 (product + 1 / 2)).bind fun shifted =>
  (binary64 ((⌊shifted⌋ : ℤ) / 100)).bind fun quotient =>
  binary32 quotient

/-- Method `getAverage` (lines 188-193). With no reading the division of line 190 is a
division by zero. -/
def getAverage (s : Sensor) : Except Fault ℚ :=
  if s._temperatureReadings.length = 0 then .error .divisionByZero
  else
    floatResult <|
      s._totalTemperature.bind fun total =>
      (binary32 (s._temperatureReadings.length : ℚ)).bind fun size =>
      (binary32 (total / size)).bind fun average =>
      round2 average

/-- The element access `_temperatureReadings[k]`. -/
def readingAt (r : List ℚ) (k : Nat) : Except Fault ℚ :=
  match r[k]? with
  | some x => .ok x
  | none => .error .indexOutOfRange

/-- The `size_t` expression `n - 1`, which wraps around at `n = 0`. -/
def sizeMinusOne (n : Nat) : Nat :=
  (n + (2 ^ 64 - 1)) % 2 ^ 64

/-- The expression `(a + b) / 2` of line 201 on two `float` readings, followed by the
rounding of line 204. -/
def medianOfTwo (a b : ℚ) : Option ℚ :=
  (binary32 (a + b)).bind fun sum =>
  (binary32 (sum / 2)).bind fun median =>
  round2 median

/-- Method `getMedian` (lines 196-205). -/
def getMedian (s : Sensor) : Except Fault ℚ :=
  let n := s._temperatureReadings.length
  if n % 2 > 0 then
    match readingAt s._temperatureReadings (n / 2) with
    | .ok median => floatResult (round2 median)
    | .error e => .error e
  else
    match readingAt s._temperatureReadings (sizeMinusOne n / 2),
          readingAt s._temperatureReadings (n / 2) with
    | .ok a, .ok b => floatResult (medianOfTwo a b)
    | .error e, _ => .error e
    | _, .error e => .error e

/-- The state of the outer loop of `getModes`: the iterator `i`, `maxCount` and the map
`modeValues` (a key that was never written holds the empty vector, as `operator[]` gives). -/
structure ModeState where
  i : Nat
  maxCount : Nat
  modeValues : Nat → List ℚ

/-- The inner loop of `getModes` (lines 216-226), entered at position `j` with `count`;
`x` is `*i`. Returns the final `j` and `count`. It runs at most `fuel` iterations. -/
def innerLoop (r : List ℚ) (x : ℚ) : Nat → Nat → Nat → Nat × Nat
  | 0, j, count => (j, count)
  | fuel + 1, j, count =>
    if h : j < r.length then
      if x = r[j] then innerLoop r x fuel (j + 1) (count + 1)
      else (j, count)
    else (j, count)

/-- The statement `modeValues[k].push_back(x)`. -/
def pushMode (modeValues : Nat → List ℚ) (k : Nat) (x : ℚ) : Nat → List ℚ :=
  fun key => if key = k then modeValues key ++ [x] else modeValues key

/-- The outer loop of `getModes` (lines 213-234), from the loop test on. It returns the
state at the loop test that fails, and runs at most `fuel` iterations. -/
def outerLoop (r : List ℚ) : Nat → ModeState → ModeState
  | 0, st => st
  | fuel + 1, st =>
    if h : st.i < r.length then
      let jc := innerLoop r r[st.i] r.length (st.i + 1) 1
      let j := jc.1
      let count := jc.2
      let st1 : ModeState :=
        if count > 1 ∧ count ≥ st.maxCount then
          { st with maxCount := count, modeValues := pushMode st.modeValues count r[st.i] }
        else st
      -- `i = j;` then the `++i` of the loop header
      outerLoop r fuel { st1 with i := j + 1 }
    else st

/-- The state in which `getModes` leaves its outer loop. -/
def modesScan (r : List ℚ) : ModeState :=
  outerLoop r (r.length + 1) { i := 0, maxCount := 1, modeValues := fun _ => [] }

/-- Method `getModes` (lines 208-236) on the vector of readings `r`. -/
def modesOf (r : List ℚ) : List ℚ :=
  let st := modesScan r
  st.modeValues st.maxCount

/-- Method `getModes` (lines 208-236). -/
def getModes (s : Sensor) : List ℚ :=
  modesOf s._temperatureReadings

/-- Feeding a sequence of readings to an accumulator, one call of `addTemperatureReading`
each, in order. -/
def ingest (s : Sensor) (readings : List ℚ) : Sensor :=
  readings.foldl addTemperatureReading s

/-- The invariant of the running total as the specification words it: the total is the
sum of the readings held. -/
def totalInvariant (s : Sensor) : Prop :=
  s._totalTemperature = some s._temperatureReadings.sum

/-- The rounding as the specification words it, in exact arithmetic:
`round2(x) = floor(x * 100 + 0.5) / 100`. -/
def round2Exact (x : ℚ) : ℚ :=
  (⌊x * 100 + 1 / 2⌋ : ℤ) / 100

/-- The median as the specification words it, over a sequence `sorted` that is already in
ascending order: the element at index `n/2` when `n` is odd, the average of the elements
at indices `(n-1)/2` and `n/2` when `n` is even. -/
def standardMedian (sorted : List ℚ) : ℚ :=
  let n := sorted.length
  if n % 2 = 1 then sorted.getD (n / 2) 0
  else (sorted.getD ((n - 1) / 2) 0 + sorted.getD (n / 2) 0) / 2

/-- The median of a sequence `sorted` in ascending order with the arithmetic of the code:
for an odd count the rounding `round2` of the middle element, for an even count
`medianOfTwo` of the two central elements. -/
def float32Median (sorted : List ℚ) : Option ℚ :=
  let n := sorted.length
  if n % 2 = 1 then round2 (sorted.getD (n / 2) 0)
  else medianOfTwo (sorted.getD ((n - 1) / 2) 0) (sorted.getD (n / 2) 0)

end Sensor

/-- The registry `std::map<std::string, TDP::Sensor> _sensorData` of `main` (line 292):
its entries in iteration order, which for `std::map` is ascending key order. -/
abbrev SensorData := List (String × Sensor)

namespace SensorData

/-- The call `_sensorData.find(k)`: the accumulator stored under `k`, `none` for `end()`. -/
def find : SensorData → String → Option Sensor
  | [], _ => none
  | (k', v) :: rest, k => if k' = k then some v else find rest k

/-- The call `_sensorData.insert(std::make_pair(k, v))`: the new entry goes to its place in
key order, and a key that is already present keeps its entry. -/
def insert : SensorData → String → Sensor → SensorData
  | [], k, v => [(k, v)]
  | (k', v') :: rest, k, v =>
    if k < k' then (k, v) :: (k', v') :: rest
    else if k = k' then (k', v') :: rest
    else (k', v') :: insert rest k v

/-- A member call `it->second.f(...)` through the iterator that `find(k)` returned: the
accumulator stored under `k` is changed in place. -/
def modify : SensorData → String → (Sensor → Sensor) → SensorData
  | [], _, _ => []
  | (k', v) :: rest, k, f =>
    if k' = k then (k', f v) :: rest else (k', v) :: modify rest k f

end SensorData

/-- The body of the ingestion loop of `main` (lines 306-320) for one record. -/
def recordReading (sensorData : SensorData) (sensorId : String) (temperature : ℚ) :
    SensorData :=
  match sensorData.find sensorId with
  | some _ => sensorData.modify sensorId (fun s => s.addTemperatureReading temperature)
  | none => sensorData.insert sensorId ((Sensor.new sensorId).addTemperatureReading temperature)

/-- The ingestion loop of `main` (lines 304-321) over the records of the input, each an
`id` and a `temperature`, starting from the empty registry. -/
def ingestRecords (records : List (String × ℚ)) : SensorData :=
  records.foldl (fun sensorData v => recordReading sensorData v.1 v.2) []

/-- One object of the output array (lines 346-366). -/
structure ReportEntry where
  id : String
  average : Except Fault ℚ
  median : Except Fault ℚ
  mode : List ℚ

/-- The body of the report loop of `main` (lines 335-366) for one registry entry. -/
def reportEntry (id : String) (s : Sensor) : ReportEntry :=
  let sorted := s.sortData
  { id := id, average := sorted.getAverage, median := sorted.getMedian,
    mode := sorted.getModes }

/-- The report loop of `main` (lines 332-367) over the registry. -/
def report (sensorData : SensorData) : List ReportEntry :=
  sensorData.map (fun e => reportEntry e.1 e.2)

/-- The temperatures recorded under `id` in a sequence of records, in input order. -/
def temperaturesOf (records : List (String × ℚ)) (id : String) : List ℚ :=
  (records.filter (fun v => v.1 = id)).map (fun v => v.2)

/-! ## The arithmetic of `float` and `double` -/

theorem natLog2_spec :
    ∀ (fuel n : ℕ), 0 < n → n ≤ fuel →
      2 ^ natLog2 fuel n ≤ n ∧ n < 2 ^ (natLog2 fuel n + 1)
  | 0, n, h0, hle => by omega
  | fuel + 1, n, h0, hle => by
    unfold natLog2
    split
    · simp
      omega
    · have ih := natLog2_spec fuel (n / 2) (by omega) (by omega)
      rw [pow_succ] at ih
      rw [pow_succ, pow_succ, pow_succ]
      omega

theorem abs_eq_natAbs_div_den (x : ℚ) : |x| = (x.num.natAbs : ℚ) / (x.den : ℚ) := by
  conv_lhs => rw [← Rat.num_div_den x]
  rw [abs_div, Nat.cast_natAbs]
  simp

theorem floorLog2_spec (x : ℚ) (hx : x ≠ 0) :
    (2 : ℚ) ^ floorLog2 x ≤ |x| ∧ |x| < (2 : ℚ) ^ (floorLog2 x + 1) := by
  have ha0 : 0 < x.num.natAbs := Int.natAbs_pos.mpr (Rat.num_ne_zero.mpr hx)
  have hb0 : 0 < x.den := x.den_pos
  obtain ⟨ha1, ha2⟩ := natLog2_spec x.num.natAbs x.num.natAbs ha0 (le_refl _)
  obtain ⟨hb1, hb2⟩ := natLog2_spec x.den x.den hb0 (le_refl _)
  have habs := abs_eq_natAbs_div_den x
  have hbq : (0 : ℚ) < (x.den : ℚ) := by exact_mod_cast hb0
  have ha1q : (2 : ℚ) ^ natLog2 x.num.natAbs x.num.natAbs ≤ (x.num.natAbs : ℚ) := by
    exact_mod_cast ha1
  have ha2q : (x.num.natAbs : ℚ) < (2 : ℚ) ^ (natLog2 x.num.natAbs x.num.natAbs + 1) := by
    exact_mod_cast ha2
  have hb1q : (2 : ℚ) ^ natLog2 x.den x.den ≤ (x.den : ℚ) := by exact_mod_cast hb1
  have hb2q : (x.den : ℚ) < (2 : ℚ) ^ (natLog2 x.den x.den + 1) := by exact_mod_cast hb2
  have hpa : (0 : ℚ) < (2 : ℚ) ^ natLog2 x.num.natAbs x.num.natAbs := by positivity
  have hpb : (0 : ℚ) < (2 : ℚ) ^ natLog2 x.den x.den := by positivity
  have hd : (2 : ℚ) ^ ((natLog2 x.num.natAbs x.num.natAbs : ℤ) - (natLog2 x.den x.den : ℤ))
      = (2 : ℚ) ^ natLog2 x.num.natAbs x.num.natAbs / (2 : ℚ) ^ natLog2 x.den x.den := by
    rw [zpow_sub₀ (by norm_num), zpow_natCast, zpow_natCast]
  unfold floorLog2
  simp only
  split
  · rename_i hle
    refine ⟨hle, ?_⟩
    rw [zpow_add_one₀ (by norm_num), hd, habs, div_mul_eq_mul_div, div_lt_div_iff₀ hbq hpb]
    rw [pow_succ] at ha2q
    nlinarith
  · rename_i hlt
    refine ⟨?_, ?_⟩
    · rw [zpow_sub_one₀ (by norm_num), hd, habs, div_mul_eq_mul_div, div_le_div_iff₀ hpb hbq]
      rw [pow_succ] at hb2q
      have : (0:ℚ) ≤ (x.num.natAbs : ℚ) := by positivity
      nlinarith
    · rw [sub_add_cancel]
      exact not_le.mp hlt

theorem roundTiesToEven_spec (x : ℚ) :
    |x - roundTiesToEven x| ≤ 1 / 2
    ∧ (|x - roundTiesToEven x| = 1 / 2 → roundTiesToEven x % 2 = 0) := by
  have h1 := Int.floor_le x
  have h2 := Int.lt_floor_add_one x
  unfold roundTiesToEven
  split
  · rename_i h
    constructor
    · rw [abs_le]; constructor <;> linarith
    · intro he
      rw [abs_of_nonneg (by linarith)] at he
      linarith
  · rename_i h
    split
    · rename_i h'
      push_cast
      constructor
      · rw [abs_le]; constructor <;> linarith
      · intro he
        rw [abs_of_nonpos (by linarith)] at he
        linarith
    · rename_i h'
      have heq : x - ⌊x⌋ = 1 / 2 := le_antisymm (not_lt.mp h') (not_lt.mp h)
      split
      · rename_i hev
        refine ⟨?_, fun _ => hev⟩
        rw [abs_le]; constructor <;> linarith
      · rename_i hodd
        push_cast
        refine ⟨?_, fun _ => by omega⟩
        rw [abs_le]; constructor <;> linarith

theorem roundBinary_spec (prec : ℕ) (emin emax : ℤ) (x y : ℚ)
    (h : roundBinary prec emin emax x = some y) :
    ∃ m : ℤ, y = (m : ℚ) * 2 ^ max (floorLog2 x - ((prec : ℤ) - 1)) emin
      ∧ |x - y| ≤ 2 ^ max (floorLog2 x - ((prec : ℤ) - 1)) emin / 2
      ∧ |y| < 2 ^ emax := by
  unfold roundBinary at h
  simp only at h
  have hpos : (0 : ℚ) < 2 ^ max (floorLog2 x - ((prec : ℤ) - 1)) emin := by positivity
  generalize (2 : ℚ) ^ max (floorLog2 x - ((prec : ℤ) - 1)) emin = E at h hpos ⊢
  split at h
  · rename_i hfin
    have hy := Option.some.inj h
    refine ⟨roundTiesToEven (x / E), hy.symm, ?_, by rw [← hy]; exact hfin⟩
    have hr := (roundTiesToEven_spec (x / E)).1
    have hx : x - y = (x / E - roundTiesToEven (x / E)) * E := by
      rw [← hy, sub_mul, div_mul_cancel₀ _ hpos.ne']
    rw [hx, abs_mul, abs_of_pos hpos]
    calc |x / E - ↑(roundTiesToEven (x / E))| * E ≤ 1 / 2 * E :=
          mul_le_mul_of_nonneg_right hr hpos.le
      _ = E / 2 := by ring
  · simp at h

/-- Values of the two roundings that are known from the formats: 0.1 as a `float` and as
a `double`, a tie that goes to the even significand, the greatest `float`, the overflow
threshold, and the least positive `float` with the tie below it. -/
theorem binary_examples :
    binary32 (1 / 10) = some (13421773 / 134217728)
    ∧ binary64 (1 / 10) = some (3602879701896397 / 36028797018963968)
    ∧ binary32 16777217 = some 16777216
    ∧ binary32 16777219 = some 16777220
    ∧ binary32 (2 ^ 128 - 2 ^ 103 - 1) = some (2 ^ 128 - 2 ^ 104)
    ∧ binary32 (2 ^ 128 - 2 ^ 103) = none
    ∧ binary32 (-(2 ^ 128 - 2 ^ 103)) = none
    ∧ binary32 (1 / 2 ^ 149) = some (1 / 2 ^ 149)
    ∧ binary32 (1 / 2 ^ 150) = some 0
    ∧ binary32 (3 / 2 ^ 150) = some (2 / 2 ^ 149)
    ∧ binary32 0 = some 0 := by
  decide!

/-! ## Accumulator: ingestion -/

namespace Sensor

theorem ingest_nil (s : Sensor) : ingest s [] = s := rfl

theorem ingest_cons (s : Sensor) (t : ℚ) (ts : List ℚ) :
    ingest s (t :: ts) = ingest (addTemperatureReading s t) ts := rfl

theorem ingest_readings (s : Sensor) (ts : List ℚ) :
    (ingest s ts)._temperatureReadings = s._temperatureReadings ++ ts := by
  induction ts generalizing s with
  | nil => simp [ingest_nil]
  | cons t ts ih => simp [ingest_cons, ih, addTemperatureReading]

theorem ingest_total (s : Sensor) (ts : List ℚ) :
    (ingest s ts)._totalTemperature = ts.foldl float32Add s._totalTemperature := by
  induction ts generalizing s with
  | nil => simp [ingest_nil]
  | cons t ts ih => simp [ingest_cons, ih, addTemperatureReading]

theorem ingest_sorted (s : Sensor) (ts : List ℚ) :
    (ingest s ts)._sorted = s._sorted := by
  induction ts generalizing s with
  | nil => simp [ingest_nil]
  | cons t ts ih => simp [ingest_cons, ih, addTemperatureReading]

theorem stdSort_perm (r : List ℚ) : (stdSort r).Perm r :=
  List.perm_insertionSort _ r

theorem stdSort_sorted (r : List ℚ) : (stdSort r).Sorted (· ≤ ·) :=
  List.sorted_insertionSort _ r

theorem stdSort_eq_of_perm_sorted {r sorted : List ℚ} (hp : sorted.Perm r)
    (hs : sorted.Sorted (· ≤ ·)) : stdSort r = sorted :=
  List.eq_of_perm_of_sorted ((stdSort_perm r).trans hp.symm) (stdSort_sorted r) hs

theorem sortData_ingest_new_readings (id : String) (rs : List ℚ) :
    (sortData (ingest (new id) rs))._temperatureReadings = stdSort rs := by
  simp [sortData, ingest_sorted, ingest_readings, new]

theorem sortData_total (s : Sensor) : (sortData s)._totalTemperature = s._totalTemperature := by
  unfold sortData
  split <;> rfl

theorem sortData_ingest_new_total (id : String) (rs : List ℚ) :
    (sortData (ingest (new id) rs))._totalTemperature = rs.foldl float32Add (some 0) := by
  simp [sortData_total, ingest_total, new]

theorem foldl_float32Add_exact :
    ∀ (rs : List ℚ) (a : ℚ), (∀ k, k ≤ rs.length → isBinary32 (a + (rs.take k).sum)) →
      rs.foldl float32Add (some a) = some (a + rs.sum)
  | [], a, _ => by simp
  | r :: rest, a, h => by
    have h1 : binary32 (a + r) = some (a + r) := by
      have := h 1 (by simp)
      simpa using this
    have hrest : ∀ k, k ≤ rest.length → isBinary32 (a + r + (rest.take k).sum) := by
      intro k hk
      have := h (k + 1) (by simpa using hk)
      simpa [add_assoc] using this
    rw [List.foldl_cons]
    have hstep : float32Add (some a) r = some (a + r) := by simp [float32Add, h1]
    rw [hstep, foldl_float32Add_exact rest (a + r) hrest]
    simp [add_assoc]

theorem sizeMinusOne_of_pos {n : Nat} (h0 : 0 < n) (hn : n < 2 ^ 64) :
    sizeMinusOne n = n - 1 := by
  unfold sizeMinusOne
  omega

theorem getMedian_eq_float32Median (s : Sensor) (h0 : 0 < s._temperatureReadings.length)
    (hn : s._temperatureReadings.length < 2 ^ 64) :
    getMedian s = floatResult (float32Median s._temperatureReadings) := by
  have hhalf : s._temperatureReadings.length / 2 < s._temperatureReadings.length := by omega
  have hprev : (s._temperatureReadings.length - 1) / 2 < s._temperatureReadings.length := by
    omega
  unfold getMedian float32Median
  simp only []
  rw [sizeMinusOne_of_pos h0 hn]
  by_cases hodd : s._temperatureReadings.length % 2 = 1
  · have hgt : s._temperatureReadings.length % 2 > 0 := by omega
    simp [hodd, readingAt, List.getElem?_eq_getElem hhalf, List.getD_eq_getElem _ _ hhalf]
  · have hgt : ¬ s._temperatureReadings.length % 2 > 0 := by omega
    simp [hodd, hgt, readingAt, List.getElem?_eq_getElem hhalf,
      List.getElem?_eq_getElem hprev, List.getD_eq_getElem _ _ hhalf,
      List.getD_eq_getElem _ _ hprev]

theorem getAverage_congr {a b : Sensor} (ht : a._totalTemperature = b._totalTemperature)
    (hl : a._temperatureReadings.length = b._temperatureReadings.length) :
    getAverage a = getAverage b := by
  simp [getAverage, ht, hl]

theorem getMedian_congr {a b : Sensor}
    (hr : a._temperatureReadings = b._temperatureReadings) : getMedian a = getMedian b := by
  simp [getMedian, hr]

/-- C1, as the code has it: for a non-empty sequence of readings fed to a freshly
constructed accumulator, `getAverage` returns the code's rounding `round2` of the `float`
quotient of the running total by the number of readings, the running total being the sum
of the readings from left to right with every partial sum rounded to `float`. When every
partial sum, the number of readings and the quotient `S / n` are `float` values, this is
`round2 (S / n)`, with `S` the exact sum. -/
theorem getAverage_ingest_new (id : String) (rs : List ℚ) (hne : rs ≠ []) :
    getAverage (ingest (new id) rs)
      = floatResult ((rs.foldl float32Add (some 0)).bind fun total =>
          (binary32 (rs.length : ℚ)).bind fun size =>
          (binary32 (total / size)).bind fun average => round2 average)
    ∧ ((∀ k, k ≤ rs.length → isBinary32 ((rs.take k).sum)) → isBinary32 (rs.length : ℚ) →
        isBinary32 (rs.sum / (rs.length : ℚ)) →
        getAverage (ingest (new id) rs) = floatResult (round2 (rs.sum / (rs.length : ℚ)))) := by
  have hlen : rs.length ≠ 0 := by simpa using hne
  have hgen : getAverage (ingest (new id) rs)
      = floatResult ((rs.foldl float32Add (some 0)).bind fun total =>
          (binary32 (rs.length : ℚ)).bind fun size =>
          (binary32 (total / size)).bind fun average => round2 average) := by
    simp [getAverage, ingest_readings, ingest_total, new, hlen]
  refine ⟨hgen, fun hsum hn hq => ?_⟩
  have hfold : rs.foldl float32Add (some 0) = some rs.sum := by
    have := foldl_float32Add_exact rs 0 (by simpa using hsum)
    simpa using this
  have hn' : binary32 (rs.length : ℚ) = some (rs.length : ℚ) := hn
  have hq' : binary32 (rs.sum / (rs.length : ℚ)) = some (rs.sum / (rs.length : ℚ)) := hq
  rw [hgen, hfold]
  simp [hn', hq']

theorem getAverage_ingest_new_witness :
    ([10, 20, 30] : List ℚ) ≠ [] ∧ getAverage (ingest (new "A") [10, 20, 30]) = .ok 20 :=
  ⟨by simp, ((getAverage_ingest_new "A" [10, 20, 30] (by simp)).1).trans (by decide!)⟩

/-- C1 fails on the `float` readings 22.6, 39, 27.3, -11.4: their exact sum is 77.5, so
`round2 (S / n)` of the claim is 19.38, while the running total of the code is 77.4999924
and `getAverage` returns the `float` 19.37. -/
theorem getAverage_differs_from_round2Exact :
    (∀ r ∈ ([11848909 / 524288, 39, 14313062 / 524288, -11953766 / 1048576] : List ℚ),
      isBinary32 r)
    ∧ ([11848909 / 524288, 39, 14313062 / 524288, -11953766 / 1048576] : List ℚ).sum = 155 / 2
    ∧ round2Exact (([11848909 / 524288, 39, 14313062 / 524288, -11953766 / 1048576] : List ℚ).sum
        / ((4 : ℕ) : ℚ)) = 969 / 50
    ∧ (ingest (new "A")
        [11848909 / 524288, 39, 14313062 / 524288, -11953766 / 1048576])._totalTemperature
        = some (10158079 / 131072)
    ∧ getAverage (ingest (new "A")
        [11848909 / 524288, 39, 14313062 / 524288, -11953766 / 1048576])
        = .ok (10155459 / 524288)
    ∧ binary32 (1937 / 100) = some (10155459 / 524288)
    ∧ getAverage (ingest (new "A")
        [11848909 / 524288, 39, 14313062 / 524288, -11953766 / 1048576])
        ≠ .ok (round2Exact (([11848909 / 524288, 39, 14313062 / 524288, -11953766 / 1048576] : List ℚ).sum
            / ((4 : ℕ) : ℚ))) := by
  decide!

/-- C2, as the code has it: for a non-empty sequence of readings `rs` fed to a fresh
accumulator in any order, `sortData` followed by `getMedian` returns the median of the
ascending arrangement `sorted` of the readings computed in `float` arithmetic: the code's
rounding `round2` of the middle element for an odd count, and for an even count of the
`float` sum of the two central elements halved in `float`. -/
theorem getMedian_sortData_ingest_new (id : String) (rs sorted : List ℚ) (hne : rs ≠ [])
    (hlen : rs.length < 2 ^ 64) (hperm : sorted.Perm rs) (hsorted : sorted.Sorted (· ≤ ·)) :
    getMedian (sortData (ingest (new id) rs)) = floatResult (float32Median sorted) := by
  have hr := sortData_ingest_new_readings id rs
  rw [stdSort_eq_of_perm_sorted hperm hsorted] at hr
  have hl : sorted.length = rs.length := hperm.length_eq
  have h0 : 0 < rs.length := List.length_pos.mpr hne
  have := getMedian_eq_float32Median (sortData (ingest (new id) rs))
    (by rw [hr, hl]; exact h0) (by rw [hr, hl]; exact hlen)
  rw [this, hr]

theorem getMedian_sortData_ingest_new_witness :
    getMedian (sortData (ingest (new "A") [30, 10, 20, 5])) = .ok 15 :=
  (getMedian_sortData_ingest_new "A" [30, 10, 20, 5] [5, 10, 20, 30] (by simp)
    (by simp) (by decide) (by norm_num)).trans (by decide!)

/-- C2 fails on the `float` readings -1.39 and -0.74: `round2` of their standard median is
-1.06, and `sortData` followed by `getMedian` returns the `float` -1.07. It also fails on
the single `float` reading 1.005: the claim gives 1, the code the `float` 1.01. -/
theorem getMedian_differs_from_round2Exact :
    isBinary32 (-11660165 / 8388608) ∧ isBinary32 (-12415140 / 16777216)
    ∧ List.Sorted (· ≤ ·) ([-11660165 / 8388608, -12415140 / 16777216] : List ℚ)
    ∧ round2Exact (standardMedian [-11660165 / 8388608, -12415140 / 16777216]) = -53 / 50
    ∧ getMedian (sortData (ingest (new "A") [-11660165 / 8388608, -12415140 / 16777216]))
        = .ok (-8975811 / 8388608)
    ∧ binary32 (-107 / 100) = some (-8975811 / 8388608)
    ∧ getMedian (sortData (ingest (new "A") [-11660165 / 8388608, -12415140 / 16777216]))
        ≠ .ok (round2Exact (standardMedian [-11660165 / 8388608, -12415140 / 16777216]))
    ∧ isBinary32 (8430551 / 8388608)
    ∧ round2Exact (standardMedian [8430551 / 8388608]) = 1
    ∧ getMedian (sortData (ingest (new "A") [8430551 / 8388608])) = .ok (4236247 / 4194304)
    ∧ binary32 (101 / 100) = some (4236247 / 4194304) := by
  decide!

/-- C5, as the code has it: two fresh accumulators that are fed sequences of readings that
are permutations of each other, and are then sorted with `sortData`, return the same
`getMedian` and the same `getModes`; they return the same `getAverage` when their running
totals, each summed in arrival order with `float` rounding, are equal. -/
theorem statistics_perm (id₁ id₂ : String) (rs₁ rs₂ : List ℚ) (hperm : rs₁.Perm rs₂) :
    getMedian (sortData (ingest (new id₁) rs₁)) = getMedian (sortData (ingest (new id₂) rs₂))
    ∧ getModes (sortData (ingest (new id₁) rs₁))
        = getModes (sortData (ingest (new id₂) rs₂))
    ∧ (rs₁.foldl float32Add (some 0) = rs₂.foldl float32Add (some 0) →
        getAverage (sortData (ingest (new id₁) rs₁))
          = getAverage (sortData (ingest (new id₂) rs₂))) := by
  have hsort : stdSort rs₁ = stdSort rs₂ :=
    stdSort_eq_of_perm_sorted ((stdSort_perm rs₂).trans hperm.symm) (stdSort_sorted rs₂)
  have hr : (sortData (ingest (new id₁) rs₁))._temperatureReadings
      = (sortData (ingest (new id₂) rs₂))._temperatureReadings := by
    rw [sortData_ingest_new_readings, sortData_ingest_new_readings, hsort]
  refine ⟨getMedian_congr hr, ?_, fun htotal => getAverage_congr ?_ (by rw [hr])⟩
  · simp [getModes, hr]
  · rw [sortData_ingest_new_total, sortData_ingest_new_total, htotal]

theorem statistics_perm_witness :
    getMedian (sortData (ingest (new "A") [3, 1, 1, 2]))
        = getMedian (sortData (ingest (new "B") [1, 2, 3, 1]))
    ∧ getModes (sortData (ingest (new "A") [3, 1, 1, 2]))
        = getModes (sortData (ingest (new "B") [1, 2, 3, 1]))
    ∧ getAverage (sortData (ingest (new "A") [3, 1, 1, 2]))
        = getAverage (sortData (ingest (new "B") [1, 2, 3, 1])) :=
  ⟨(statistics_perm "A" "B" [3, 1, 1, 2] [1, 2, 3, 1] (by decide)).1,
   (statistics_perm "A" "B" [3, 1, 1, 2] [1, 2, 3, 1] (by decide)).2.1,
   (statistics_perm "A" "B" [3, 1, 1, 2] [1, 2, 3, 1] (by decide)).2.2 (by decide!)⟩

/-- C5 fails on the `float` readings 22.6, 39, 27.3, -11.4: fed in this order the running
total is 77.4999924 and `getAverage` is the `float` 19.37; fed with the last two exchanged
the running total is 77.5 and `getAverage` is the `float` 19.38. -/
theorem getAverage_depends_on_order :
    List.Perm ([11848909 / 524288, 39, 14313062 / 524288, -11953766 / 1048576] : List ℚ)
      [11848909 / 524288, 39, -11953766 / 1048576, 14313062 / 524288]
    ∧ (∀ r ∈ ([11848909 / 524288, 39, 14313062 / 524288, -11953766 / 1048576] : List ℚ),
        isBinary32 r)
    ∧ getAverage (sortData (ingest (new "A")
        [11848909 / 524288, 39, 14313062 / 524288, -11953766 / 1048576]))
        = .ok (10155459 / 524288)
    ∧ getAverage (sortData (ingest (new "B")
        [11848909 / 524288, 39, -11953766 / 1048576, 14313062 / 524288]))
        = .ok (10160701 / 524288)
    ∧ getAverage (sortData (ingest (new "A")
        [11848909 / 524288, 39, 14313062 / 524288, -11953766 / 1048576]))
        ≠ getAverage (sortData (ingest (new "B")
            [11848909 / 524288, 39, -11953766 / 1048576, 14313062 / 524288])) := by
  decide!

/-- C6 (the code departs from it): `addTemperatureReading` leaves the flag `_sorted` as it
was. On the accumulator that holds `[2]` and has been sorted, adding `1` keeps the flag
`true`, and the following `sortData` leaves the readings as `[2, 1]`, which is not
ascending. -/
theorem addTemperatureReading_keeps_sorted_flag :
    (∀ (s : Sensor) (t : ℚ), (addTemperatureReading s t)._sorted = s._sorted)
    ∧ (addTemperatureReading (sortData (addTemperatureReading (new "A") 2)) 1)._sorted = true
    ∧ (sortData (addTemperatureReading (sortData (addTemperatureReading (new "A") 2))
        1))._temperatureReadings = [2, 1]
    ∧ ¬ List.Sorted (· ≤ ·) ([2, 1] : List ℚ) := by
  refine ⟨fun s t => rfl, by simp [addTemperatureReading, sortData, new], ?_, by norm_num⟩
  simp [addTemperatureReading, sortData, new, stdSort]

/-- C9, as the code has it: the running total is the sum of the readings held for a
freshly constructed accumulator; `sortData` preserves this, and `addTemperatureReading`
preserves it when the new sum is a `float` value. In general `addTemperatureReading` makes
the total the `float` rounding of the old total plus the reading, so that the total of a
fresh accumulator fed `rs` is the sum from left to right with every partial sum rounded to
`float`. -/
theorem totalInvariant_preserved :
    (∀ id : String, totalInvariant (new id))
    ∧ (∀ (s : Sensor) (t : ℚ), totalInvariant s → isBinary32 (s._temperatureReadings.sum + t) →
        totalInvariant (addTemperatureReading s t))
    ∧ (∀ s : Sensor, totalInvariant s → totalInvariant (sortData s))
    ∧ (∀ (s : Sensor) (t : ℚ), totalInvariant s →
        (addTemperatureReading s t)._totalTemperature
          = binary32 (s._temperatureReadings.sum + t))
    ∧ (∀ (id : String) (rs : List ℚ),
        (ingest (new id) rs)._totalTemperature = rs.foldl float32Add (some 0)) := by
  refine ⟨fun id => by simp [totalInvariant, new], fun s t h hb => ?_, fun s h => ?_,
    fun s t h => ?_, fun id rs => by simp [ingest_total, new]⟩
  · unfold totalInvariant at h ⊢
    have hb' : binary32 (s._temperatureReadings.sum + t)
        = some (s._temperatureReadings.sum + t) := hb
    simp [addTemperatureReading, float32Add, h, hb']
  · unfold totalInvariant at h ⊢
    unfold sortData
    split
    · simp [h, (stdSort_perm s._temperatureReadings).sum_eq]
    · exact h
  · unfold totalInvariant at h
    simp [addTemperatureReading, float32Add, h]

theorem totalInvariant_preserved_witness :
    totalInvariant (sortData (addTemperatureReading (addTemperatureReading (new "A") 3) 1)) :=
  totalInvariant_preserved.2.2.1 _
    (totalInvariant_preserved.2.1 _ 1
      (totalInvariant_preserved.2.1 _ 3 (totalInvariant_preserved.1 "A") (by decide!))
      (by decide!))

/-- C9 fails on the `float` readings 16777216 and 1: after the first the running total is
the sum 16777216, after the second it is still 16777216 while the sum is 16777217. -/
theorem totalInvariant_broken_by_rounding :
    isBinary32 16777216 ∧ isBinary32 1
    ∧ totalInvariant (addTemperatureReading (new "A") 16777216)
    ∧ (addTemperatureReading (addTemperatureReading (new "A") 16777216) 1)._totalTemperature
        = some 16777216
    ∧ (addTemperatureReading (addTemperatureReading (new "A") 16777216)
        1)._temperatureReadings.sum = 16777217
    ∧ ¬ totalInvariant (addTemperatureReading (addTemperatureReading (new "A") 16777216) 1) := by
  unfold totalInvariant
  decide!

/-! ## Accumulator: the scan of `getModes` -/

theorem innerLoop_count_gt (r : List ℚ) (x : ℚ) :
    ∀ (fuel j count : Nat), count < (innerLoop r x fuel j count).2 →
      ∃ h : j < r.length, x = r[j]
  | 0, j, count, h => by simp [innerLoop] at h
  | fuel + 1, j, count, h => by
    unfold innerLoop at h
    split at h
    · rename_i hj
      split at h
      · rename_i hx
        exact ⟨hj, hx⟩
      · simp at h
    · simp at h

theorem two_le_count_of_adjacent :
    ∀ (r : List ℚ) (i : Nat) (h : i + 1 < r.length),
      r[i] = r[i + 1] → 2 ≤ r.count r[i]
  | [], i, h, _ => by simp at h
  | a :: t, 0, h, heq => by
    have ht : 0 < t.length := by simpa using h
    have hmem : a ∈ t := by
      have : a = t[0] := by simpa using heq
      rw [this]
      exact List.getElem_mem ht
    have hpos : 0 < t.count a := List.count_pos_iff.mpr hmem
    simp only [List.getElem_cons_zero, List.count_cons_self]
    omega
  | a :: t, i + 1, h, heq => by
    have ht : i + 1 < t.length := by simpa using h
    have ih := two_le_count_of_adjacent t i ht (by simpa using heq)
    simp only [List.getElem_cons_succ]
    exact le_trans ih (List.count_le_count_cons _ _ _)

theorem outerLoop_modes_repeated (r : List ℚ) :
    ∀ (fuel : Nat) (st : ModeState),
      (∀ k, ∀ y ∈ st.modeValues k, 2 ≤ r.count y) →
      ∀ k, ∀ y ∈ (outerLoop r fuel st).modeValues k, 2 ≤ r.count y
  | 0, st, hst => by simpa [outerLoop] using hst
  | fuel + 1, st, hst => by
    unfold outerLoop
    split
    · rename_i hi
      apply outerLoop_modes_repeated r fuel
      intro k y hy
      by_cases hc : (innerLoop r r[st.i] r.length (st.i + 1) 1).2 > 1
          ∧ (innerLoop r r[st.i] r.length (st.i + 1) 1).2 ≥ st.maxCount
      · simp only [hc, and_self, if_true, pushMode] at hy
        split at hy
        · rcases List.mem_append.mp hy with hy | hy
          · exact hst k y hy
          · obtain ⟨hj, hx⟩ := innerLoop_count_gt r r[st.i] r.length (st.i + 1) 1 hc.1
            have hy : y = r[st.i] := by simpa using hy
            rw [hy]
            exact two_le_count_of_adjacent r st.i hj hx
        · exact hst k y hy
      · simp only [hc, if_false] at hy
        exact hst k y hy
    · exact hst

theorem modesOf_repeated (r : List ℚ) : ∀ y ∈ modesOf r, 2 ≤ r.count y := by
  intro y hy
  exact outerLoop_modes_repeated r _ _ (by simp) _ y hy

/-! The fuel given to the two loops is enough: each leaves through its own loop test. -/

theorem innerLoop_fst_ge (r : List ℚ) (x : ℚ) :
    ∀ (fuel j count : Nat), j ≤ (innerLoop r x fuel j count).1
  | 0, j, count => by simp [innerLoop]
  | fuel + 1, j, count => by
    unfold innerLoop
    split
    · split
      · exact le_trans (Nat.le_succ j) (innerLoop_fst_ge r x fuel (j + 1) (count + 1))
      · exact le_refl j
    · exact le_refl j

theorem innerLoop_exit (r : List ℚ) (x : ℚ) :
    ∀ (fuel j count : Nat), r.length ≤ j + fuel →
      r[(innerLoop r x fuel j count).1]? ≠ some x
  | 0, j, count, h => by
    have : r.length ≤ j := by simpa using h
    simp [innerLoop, List.getElem?_eq_none this]
  | fuel + 1, j, count, h => by
    unfold innerLoop
    split
    · rename_i hj
      split
      · exact innerLoop_exit r x fuel (j + 1) (count + 1) (by omega)
      · rename_i hx
        simp only [List.getElem?_eq_getElem hj, ne_eq, Option.some.injEq]
        exact fun e => hx e.symm
    · rename_i hj
      simp [List.getElem?_eq_none (Nat.le_of_not_lt hj)]

theorem outerLoop_exit (r : List ℚ) :
    ∀ (fuel : Nat) (st : ModeState), r.length ≤ st.i + fuel →
      r.length ≤ (outerLoop r fuel st).i
  | 0, st, h => by simpa [outerLoop] using h
  | fuel + 1, st, h => by
    unfold outerLoop
    split
    · apply outerLoop_exit r fuel
      have := innerLoop_fst_ge r r[st.i] r.length (st.i + 1) 1
      simp only
      omega
    · rename_i hi
      exact Nat.le_of_not_lt hi

theorem outerLoop_of_exit (r : List ℚ) (st : ModeState) (h : r.length ≤ st.i) :
    ∀ fuel : Nat, outerLoop r fuel st = st
  | 0 => rfl
  | fuel + 1 => by
    unfold outerLoop
    simp [Nat.not_lt.mpr h]

theorem outerLoop_more_fuel (r : List ℚ) :
    ∀ (fuel extra : Nat) (st : ModeState), r.length ≤ st.i + fuel →
      outerLoop r (fuel + extra) st = outerLoop r fuel st
  | 0, extra, st, h => by
    rw [outerLoop_of_exit r st (by simpa using h), outerLoop_of_exit r st (by simpa using h)]
  | fuel + 1, extra, st, h => by
    have he : fuel + 1 + extra = (fuel + extra) + 1 := by omega
    rw [he]
    unfold outerLoop
    split
    · apply outerLoop_more_fuel r fuel extra
      have := innerLoop_fst_ge r r[st.i] r.length (st.i + 1) 1
      simp only
      omega
    · rfl

theorem modesScan_exit (r : List ℚ) : r.length ≤ (modesScan r).i :=
  outerLoop_exit r _ _ (by simp)

/-- C3 (the code departs from it): on the sorted readings `[1, 1, 2, 2]` the value `2`
occurs twice, which is the greatest number of occurrences of any value, and `getModes`
returns `[1]` without it. The example of the claim, `[1, 1, 2, 3, 3]`, does give `[1, 3]`. -/
theorem getModes_misses_tied_mode :
    List.Sorted (· ≤ ·) ([1, 1, 2, 2] : List ℚ)
    ∧ List.count (2 : ℚ) [1, 1, 2, 2] = 2
    ∧ (∀ y : ℚ, List.count y [1, 1, 2, 2] ≤ List.count (2 : ℚ) [1, 1, 2, 2])
    ∧ getModes { _id := "A", _totalTemperature := some 6, _temperatureReadings := [1, 1, 2, 2],
                 _sorted := true } = [1]
    ∧ getModes { _id := "A", _totalTemperature := some 10,
                 _temperatureReadings := [1, 1, 2, 3, 3], _sorted := true } = [1, 3] := by
  refine ⟨by norm_num, by decide, ?_, by decide, by decide⟩
  intro y
  have h2 : List.count (2 : ℚ) [1, 1, 2, 2] = 2 := by decide
  rw [h2]
  by_cases h1 : y = 1
  · subst h1; decide
  · by_cases h2 : y = 2
    · subst h2; decide
    · have hn : y ∉ ([1, 1, 2, 2] : List ℚ) := by simp [h1, h2]
      rw [List.count_eq_zero_of_not_mem hn]
      omega

/-- C4 (the code departs from it): on the sorted readings `[1, 1, 2, 2, 2]` the greatest
run is the run of `2`, of length 3, and `getModes` returns `[1, 2]`: it reports `1`, whose
run has length 2. The example of the claim, `[1, 1, 1, 2, 2]`, does give `[1]`. -/
theorem getModes_reports_shorter_run :
    List.Sorted (· ≤ ·) ([1, 1, 2, 2, 2] : List ℚ)
    ∧ List.count (1 : ℚ) [1, 1, 2, 2, 2] = 2
    ∧ List.count (2 : ℚ) [1, 1, 2, 2, 2] = 3
    ∧ getModes { _id := "A", _totalTemperature := some 8,
                 _temperatureReadings := [1, 1, 2, 2, 2], _sorted := true } = [1, 2]
    ∧ getModes { _id := "A", _totalTemperature := some 7,
                 _temperatureReadings := [1, 1, 1, 2, 2], _sorted := true } = [1] := by
  refine ⟨by norm_num, by decide, by decide, by decide, by decide⟩

/-- C7: when no value occurs more than once among the readings, sorted or not, `getModes`
returns the empty sequence. -/
theorem getModes_nodup (s : Sensor) (h : s._temperatureReadings.Nodup) : getModes s = [] := by
  apply List.eq_nil_iff_forall_not_mem.mpr
  intro y hy
  have h2 := modesOf_repeated s._temperatureReadings y hy
  have h1 := List.nodup_iff_count_le_one.mp h y
  omega

theorem getModes_nodup_witness :
    getModes (ingest (new "A") [1, 2, 3]) = [] ∧ getModes (ingest (new "A") [3, 1, 2]) = [] :=
  ⟨getModes_nodup _ (by simp [ingest_readings, new]),
   getModes_nodup _ (by simp [ingest_readings, new])⟩

/-- C8: every value that `getModes` returns occurs at least twice among the readings, so a
value that occurs exactly once is never reported. This holds whether or not the readings
are sorted. -/
theorem getModes_occurs_twice (s : Sensor) :
    ∀ y ∈ getModes s, 2 ≤ s._temperatureReadings.count y :=
  modesOf_repeated s._temperatureReadings

theorem getModes_occurs_twice_witness :
    (1 : ℚ) ∈ getModes { _id := "A", _totalTemperature := some 4,
                         _temperatureReadings := [1, 1, 2], _sorted := true }
    ∧ 2 ≤ List.count (1 : ℚ) [1, 1, 2] :=
  ⟨by decide, getModes_occurs_twice (Sensor.mk "A" (some 4) [1, 1, 2] true) 1 (by decide)⟩

end Sensor

/-! ## Registry -/

namespace SensorData

theorem find_insert_of_absent (v : Sensor) (k : String) :
    ∀ m : SensorData, m.find k = none → (m.insert k v).find k = some v
  | [], _ => by simp [insert, find]
  | (k', v') :: rest, h => by
    have hk : ¬ k' = k := by
      intro e
      simp [find, e] at h
    have hrest : find rest k = none := by simpa [find, hk] using h
    unfold insert
    split
    · simp [find]
    · split
      · rename_i e
        exact absurd e.symm hk
      · simp [find, hk, find_insert_of_absent v k rest hrest]

theorem find_insert_of_ne (v : Sensor) {k k₂ : String} (hne : k ≠ k₂) :
    ∀ m : SensorData, (m.insert k v).find k₂ = m.find k₂
  | [] => by simp [insert, find, hne]
  | (k', v') :: rest => by
    unfold insert
    split
    · simp [find, hne]
    · split
      · rfl
      · simp [find, find_insert_of_ne v hne rest]

theorem length_insert_of_absent (v : Sensor) (k : String) :
    ∀ m : SensorData, m.find k = none → (m.insert k v).length = m.length + 1
  | [], _ => by simp [insert]
  | (k', v') :: rest, h => by
    have hk : ¬ k' = k := by
      intro e
      simp [find, e] at h
    have hrest : find rest k = none := by simpa [find, hk] using h
    unfold insert
    split
    · simp
    · split
      · rename_i e
        exact absurd e.symm hk
      · simp [length_insert_of_absent v k rest hrest]

theorem find_modify_self (f : Sensor → Sensor) (k : String) :
    ∀ m : SensorData, (m.modify k f).find k = (m.find k).map f
  | [] => by simp [modify, find]
  | (k', v) :: rest => by
    by_cases hk : k' = k
    · simp [modify, find, hk]
    · simp [modify, find, hk, find_modify_self f k rest]

theorem find_modify_of_ne (f : Sensor → Sensor) {k k₂ : String} (hne : k ≠ k₂) :
    ∀ m : SensorData, (m.modify k f).find k₂ = m.find k₂
  | [] => by simp [modify, find]
  | (k', v) :: rest => by
    by_cases hk : k' = k
    · have hk₂ : ¬ k' = k₂ := fun e => hne (hk.symm.trans e)
      simp [modify, find, hk, hne]
    · by_cases hk₂ : k' = k₂
      · subst hk₂
        simp [modify, find, hk]
      · simp [modify, find, hk, hk₂, find_modify_of_ne f hne rest]

theorem length_modify (f : Sensor → Sensor) (k : String) :
    ∀ m : SensorData, (m.modify k f).length = m.length
  | [] => by simp [modify]
  | (k', v) :: rest => by
    by_cases hk : k' = k
    · simp [modify, hk]
    · simp [modify, hk, length_modify f k rest]

end SensorData

theorem find_recordReading_self (m : SensorData) (id : String) (t : ℚ) :
    (recordReading m id t).find id
      = some (((m.find id).getD (Sensor.new id)).addTemperatureReading t) := by
  unfold recordReading
  cases h : m.find id with
  | none => simp [SensorData.find_insert_of_absent _ _ m h]
  | some s => simp [SensorData.find_modify_self, h]

theorem find_recordReading_of_ne (m : SensorData) {id id₂ : String} (hne : id ≠ id₂) (t : ℚ) :
    (recordReading m id t).find id₂ = m.find id₂ := by
  unfold recordReading
  cases h : m.find id with
  | none => simp [SensorData.find_insert_of_ne _ hne]
  | some s => simp [SensorData.find_modify_of_ne _ hne]

theorem temperaturesOf_cons (k id : String) (t : ℚ) (rest : List (String × ℚ)) :
    temperaturesOf ((k, t) :: rest) id
      = if k = id then t :: temperaturesOf rest id else temperaturesOf rest id := by
  by_cases hk : k = id <;> simp [temperaturesOf, List.filter_cons, hk]

theorem find_foldl_recordReading (id : String) :
    ∀ (records : List (String × ℚ)) (m : SensorData),
      ((records.foldl (fun sensorData v => recordReading sensorData v.1 v.2) m).find id).map
          (fun s => s._temperatureReadings)
        = match m.find id with
          | some s => some (s._temperatureReadings ++ temperaturesOf records id)
          | none =>
            if temperaturesOf records id = [] then none
            else some (temperaturesOf records id)
  | [], m => by
    cases h : m.find id <;> simp [temperaturesOf, h]
  | (k, t) :: rest, m => by
    rw [List.foldl_cons, find_foldl_recordReading id rest (recordReading m k t),
      temperaturesOf_cons]
    by_cases hk : k = id
    · subst hk
      rw [find_recordReading_self]
      cases h : m.find k <;> simp [Sensor.addTemperatureReading, Sensor.new]
    · rw [find_recordReading_of_ne m hk]
      cases h : m.find id <;> simp [hk]

/-- C10: recording `(id, value)` in a registry where `id` is absent adds one entry, whose
accumulator holds the single reading `[value]`; where `id` is present, `value` is appended
to the readings of its accumulator and no entry is added; and after a whole sequence of
records the accumulator of each id holds the temperatures recorded under that id, in input
order (an id that was never recorded has no entry). -/
theorem recordReading_spec :
    (∀ (m : SensorData) (id : String) (value : ℚ), m.find id = none →
      (recordReading m id value).length = m.length + 1
      ∧ ∃ s, (recordReading m id value).find id = some s ∧ s._temperatureReadings = [value])
    ∧ (∀ (m : SensorData) (id : String) (value : ℚ) (s : Sensor), m.find id = some s →
      (recordReading m id value).length = m.length
      ∧ ∃ s', (recordReading m id value).find id = some s'
          ∧ s'._temperatureReadings = s._temperatureReadings ++ [value])
    ∧ (∀ (records : List (String × ℚ)) (id : String),
      ((ingestRecords records).find id).map (fun s => s._temperatureReadings)
        = if temperaturesOf records id = [] then none
          else some (temperaturesOf records id)) := by
  refine ⟨fun m id value h => ⟨?_, ?_⟩, fun m id value s h => ⟨?_, ?_⟩, fun records id => ?_⟩
  · simp [recordReading, h, SensorData.length_insert_of_absent _ _ m h]
  · exact ⟨_, find_recordReading_self m id value,
      by simp [h, Sensor.addTemperatureReading, Sensor.new]⟩
  · simp [recordReading, h, SensorData.length_modify]
  · exact ⟨_, find_recordReading_self m id value, by simp [h, Sensor.addTemperatureReading]⟩
  · exact find_foldl_recordReading id records []

theorem recordReading_spec_witness :
    ((ingestRecords [("A", 10), ("A", 20), ("B", 5), ("A", 30)]).find "A").map
        (fun s => s._temperatureReadings) = some [10, 20, 30]
    ∧ ((ingestRecords [("A", 10), ("A", 20), ("B", 5), ("A", 30)]).find "C").map
        (fun s => s._temperatureReadings) = none :=
  ⟨(recordReading_spec.2.2 [("A", 10), ("A", 20), ("B", 5), ("A", 30)] "A").trans
      (by simp [temperaturesOf]),
   (recordReading_spec.2.2 [("A", 10), ("A", 20), ("B", 5), ("A", 30)] "C").trans
      (by simp [temperaturesOf])⟩

/-! ## Registry: key order and the accumulator stored under each key -/

namespace SensorData

theorem keys_modify (f : Sensor → Sensor) (k : String) :
    ∀ m : SensorData, (m.modify k f).map Prod.fst = m.map Prod.fst
  | [] => rfl
  | (k', v) :: rest => by
    by_cases hk : k' = k
    · simp [modify, hk]
    · simp [modify, hk, keys_modify f k rest]

theorem mem_keys_insert (v : Sensor) (k x : String) :
    ∀ m : SensorData, x ∈ (m.insert k v).map Prod.fst ↔ x = k ∨ x ∈ m.map Prod.fst
  | [] => by simp [insert]
  | (k', v') :: rest => by
    unfold insert
    split
    · simp
    · split
      · rename_i e
        subst e
        simp
      · simp only [List.map_cons, List.mem_cons, mem_keys_insert v k x rest]
        tauto

theorem sorted_insert (v : Sensor) (k : String) :
    ∀ m : SensorData, (m.map Prod.fst).Sorted (· < ·) →
      ((m.insert k v).map Prod.fst).Sorted (· < ·)
  | [], _ => by simp [insert]
  | (k', v') :: rest, h => by
    have hrest : (rest.map Prod.fst).Sorted (· < ·) := (List.sorted_cons.mp h).2
    have hhead : ∀ b ∈ rest.map Prod.fst, k' < b := (List.sorted_cons.mp h).1
    unfold insert
    split
    · rename_i hlt
      refine List.sorted_cons.mpr ⟨?_, h⟩
      intro b hb
      rcases List.mem_cons.mp hb with e | hb
      · rw [e]; exact hlt
      · exact lt_trans hlt (hhead b hb)
    · rename_i hnlt
      split
      · exact h
      · rename_i hne
        refine List.sorted_cons.mpr ⟨?_, sorted_insert v k rest hrest⟩
        intro b hb
        rcases (mem_keys_insert v k b rest).mp hb with e | hb
        · rw [e]
          exact lt_of_le_of_ne (not_lt.mp hnlt) (Ne.symm hne)
        · exact hhead b hb

theorem mem_of_find :
    ∀ (m : SensorData) (k : String) (s : Sensor), m.find k = some s → (k, s) ∈ m
  | [], _, _, h => by simp [find] at h
  | (k', v) :: rest, k, s, h => by
    by_cases hk : k' = k
    · have : v = s := by simpa [find, hk] using h
      simp [hk, this]
    · have : find rest k = some s := by simpa [find, hk] using h
      exact List.mem_cons_of_mem _ (mem_of_find rest k s this)

theorem find_of_mem :
    ∀ (m : SensorData), (m.map Prod.fst).Nodup →
      ∀ (k : String) (s : Sensor), (k, s) ∈ m → m.find k = some s
  | [], _, _, _, h => by simp at h
  | (k', v) :: rest, hnd, k, s, h => by
    have hnd' := List.nodup_cons.mp hnd
    rcases List.mem_cons.mp h with e | hmem
    · have hk : k = k' := congrArg Prod.fst e
      have hv : s = v := congrArg Prod.snd e
      simp [find, hk, hv]
    · have hk : ¬ k' = k := by
        intro e
        apply hnd'.1
        rw [e]
        exact List.mem_map.mpr ⟨(k, s), hmem, rfl⟩
      simp [find, hk, find_of_mem rest hnd'.2 k s hmem]

end SensorData

theorem sorted_recordReading (m : SensorData) (id : String) (t : ℚ)
    (h : (m.map Prod.fst).Sorted (· < ·)) :
    ((recordReading m id t).map Prod.fst).Sorted (· < ·) := by
  unfold recordReading
  cases m.find id with
  | none => exact SensorData.sorted_insert _ _ m h
  | some s => simpa [SensorData.keys_modify] using h

theorem sorted_foldl_recordReading :
    ∀ (records : List (String × ℚ)) (m : SensorData), (m.map Prod.fst).Sorted (· < ·) →
      ((records.foldl (fun sensorData v => recordReading sensorData v.1 v.2) m).map
        Prod.fst).Sorted (· < ·)
  | [], _, h => h
  | (k, t) :: rest, m, h => by
    rw [List.foldl_cons]
    exact sorted_foldl_recordReading rest _ (sorted_recordReading m k t h)

theorem sorted_ingestRecords (records : List (String × ℚ)) :
    ((ingestRecords records).map Prod.fst).Sorted (· < ·) :=
  sorted_foldl_recordReading records [] (by simp)

theorem find_foldl_recordReading_sensor (id : String) :
    ∀ (records : List (String × ℚ)) (m : SensorData),
      (records.foldl (fun sensorData v => recordReading sensorData v.1 v.2) m).find id
        = match m.find id with
          | some s => some (s.ingest (temperaturesOf records id))
          | none =>
            if temperaturesOf records id = [] then none
            else some ((Sensor.new id).ingest (temperaturesOf records id))
  | [], m => by
    cases h : m.find id <;> simp [temperaturesOf, h, Sensor.ingest_nil]
  | (k, t) :: rest, m => by
    rw [List.foldl_cons, find_foldl_recordReading_sensor id rest (recordReading m k t),
      temperaturesOf_cons]
    by_cases hk : k = id
    · subst hk
      rw [find_recordReading_self]
      cases h : m.find k <;> simp [Sensor.ingest_cons]
    · rw [find_recordReading_of_ne m hk]
      cases h : m.find id <;> simp [hk]

theorem find_ingestRecords (records : List (String × ℚ)) (id : String) :
    (ingestRecords records).find id
      = if temperaturesOf records id = [] then none
        else some ((Sensor.new id).ingest (temperaturesOf records id)) :=
  find_foldl_recordReading_sensor id records []

theorem temperaturesOf_eq_nil_iff (records : List (String × ℚ)) (id : String) :
    temperaturesOf records id = [] ↔ id ∉ records.map Prod.fst := by
  induction records with
  | nil => simp [temperaturesOf]
  | cons v rest ih =>
    obtain ⟨k, t⟩ := v
    rw [temperaturesOf_cons]
    by_cases hk : k = id
    · simp [hk]
    · have hk' : ¬ id = k := fun e => hk e.symm
      simp [hk, hk', ih]

theorem mem_ingestRecords {records : List (String × ℚ)} {k : String} {s : Sensor}
    (h : (k, s) ∈ ingestRecords records) :
    temperaturesOf records k ≠ [] ∧ s = (Sensor.new k).ingest (temperaturesOf records k) := by
  have hfind := SensorData.find_of_mem _ (sorted_ingestRecords records).nodup k s h
  rw [find_ingestRecords] at hfind
  by_cases he : temperaturesOf records k = []
  · simp [he] at hfind
  · simp only [he, if_false, Option.some.injEq] at hfind
    exact ⟨he, hfind.symm⟩

/-! ## Accumulator: the order of the modes reported -/

namespace Sensor

theorem lt_of_after_run {r : List ℚ} (hs : r.Sorted (· ≤ ·)) {i j p : Nat} (hi : i < r.length)
    (hij : i + 1 ≤ j) (hexit : r[j]? ≠ some r[i]) (hp : p < r.length) (hjp : j + 1 ≤ p) :
    r[i] < r[p] := by
  have hj : j < r.length := by omega
  have h1 : r[i] ≤ r[j] := List.pairwise_iff_getElem.mp hs i j hi hj (by omega)
  have h2 : r[j] ≤ r[p] := List.pairwise_iff_getElem.mp hs j p hj hp (by omega)
  have h3 : r[j] ≠ r[i] := by
    intro e
    apply hexit
    rw [List.getElem?_eq_getElem hj, e]
  exact lt_of_lt_of_le (lt_of_le_of_ne h1 (Ne.symm h3)) h2

theorem outerLoop_ascending (r : List ℚ) (hs : r.Sorted (· ≤ ·)) :
    ∀ (fuel : Nat) (st : ModeState),
      (∀ k, (st.modeValues k).Sorted (· < ·)) →
      (∀ k, ∀ y ∈ st.modeValues k, ∀ (p : Nat) (hp : p < r.length), st.i ≤ p → y < r[p]) →
      ∀ k, ((outerLoop r fuel st).modeValues k).Sorted (· < ·)
  | 0, st, h1, _ => by simpa [outerLoop] using h1
  | fuel + 1, st, h1, h2 => by
    unfold outerLoop
    split
    · rename_i hi
      have hge := innerLoop_fst_ge r r[st.i] r.length (st.i + 1) 1
      have hexit := innerLoop_exit r r[st.i] r.length (st.i + 1) 1 (by omega)
      by_cases hc : (innerLoop r r[st.i] r.length (st.i + 1) 1).2 > 1
          ∧ (innerLoop r r[st.i] r.length (st.i + 1) 1).2 ≥ st.maxCount
      · apply outerLoop_ascending r hs fuel
        · intro k
          simp only [hc, and_self, if_true, pushMode]
          split
          · refine List.pairwise_append.mpr ⟨h1 k, List.pairwise_singleton _ _, ?_⟩
            intro a ha b hb
            have hb : b = r[st.i] := by simpa using hb
            rw [hb]
            exact h2 k a ha st.i hi (le_refl _)
          · exact h1 k
        · intro k y hy p hp hle
          simp only [hc, and_self, if_true, pushMode] at hy hle
          split at hy
          · rcases List.mem_append.mp hy with hy | hy
            · exact h2 k y hy p hp (by omega)
            · have hy : y = r[st.i] := by simpa using hy
              rw [hy]
              exact lt_of_after_run hs hi hge hexit hp hle
          · exact h2 k y hy p hp (by omega)
      · apply outerLoop_ascending r hs fuel
        · intro k
          simp only [hc, if_false]
          exact h1 k
        · intro k y hy p hp hle
          simp only [hc, if_false] at hy hle
          exact h2 k y hy p hp (by omega)
    · exact h1

theorem modesOf_ascending (r : List ℚ) (hs : r.Sorted (· ≤ ·)) :
    (modesOf r).Sorted (· < ·) :=
  outerLoop_ascending r hs _ _ (by simp) (by simp) _

end Sensor

/-! ## Report -/

theorem report_ids (m : SensorData) : (report m).map (fun e => e.id) = m.map Prod.fst := by
  simp [report, reportEntry]

theorem mem_keys_ingestRecords (records : List (String × ℚ)) (id : String) :
    id ∈ (ingestRecords records).map Prod.fst ↔ id ∈ records.map Prod.fst := by
  constructor
  · intro h
    obtain ⟨⟨k, s⟩, hmem, hk⟩ := List.mem_map.mp h
    have hk : k = id := hk
    subst hk
    have := (mem_ingestRecords hmem).1
    by_contra hno
    exact this ((temperaturesOf_eq_nil_iff records k).mpr hno)
  · intro h
    have hne : temperaturesOf records id ≠ [] := fun e =>
      (temperaturesOf_eq_nil_iff records id).mp e h
    have hfind := find_ingestRecords records id
    simp only [hne, if_false] at hfind
    exact List.mem_map.mpr ⟨_, SensorData.mem_of_find _ _ _ hfind, rfl⟩

theorem ingestRecords_example :
    ingestRecords [("A", 10), ("A", 20), ("B", 5), ("A", 30)]
      = [("A", Sensor.mk "A" (some 60) [10, 20, 30] false),
         ("B", Sensor.mk "B" (some 5) [5] false)] := by
  have hBA : ¬ ("B" : String) < "A" := by rw [String.lt_iff_toList_lt]; decide
  have hA : float32Add (float32Add (float32Add (some 0) 10) 20) 30 = some 60 := by decide!
  have hB : float32Add (some 0) 5 = some 5 := by decide!
  simp [ingestRecords, recordReading, SensorData.find, SensorData.insert, SensorData.modify,
    Sensor.new, Sensor.addTemperatureReading, hBA, hA, hB]

/-- C11: for every sequence of records the report has exactly one entry for each distinct
sensor id of the input, and the average, median and modes of an entry are those of a
standalone accumulator that was fed the temperatures recorded under that id and then
sorted. For the records (A,10), (A,20), (B,5), (A,30) the report is A with average 20,
median 20 and no mode, followed by B with average 5, median 5 and no mode. -/
theorem report_ingestRecords :
    (∀ records : List (String × ℚ),
      ((report (ingestRecords records)).map (fun e => e.id)).Nodup
      ∧ (∀ id : String,
          id ∈ (report (ingestRecords records)).map (fun e => e.id) ↔ id ∈ records.map Prod.fst)
      ∧ (∀ e ∈ report (ingestRecords records),
          e.average
              = ((Sensor.new e.id).ingest (temperaturesOf records e.id)).sortData.getAverage
          ∧ e.median
              = ((Sensor.new e.id).ingest (temperaturesOf records e.id)).sortData.getMedian
          ∧ e.mode
              = ((Sensor.new e.id).ingest (temperaturesOf records e.id)).sortData.getModes))
    ∧ report (ingestRecords [("A", 10), ("A", 20), ("B", 5), ("A", 30)])
        = [{ id := "A", average := .ok 20, median := .ok 20, mode := [] },
           { id := "B", average := .ok 5, median := .ok 5, mode := [] }] := by
  refine ⟨fun records => ⟨?_, fun id => ?_, fun e he => ?_⟩, ?_⟩
  · rw [report_ids]
    exact (sorted_ingestRecords records).nodup
  · rw [report_ids]
    exact mem_keys_ingestRecords records id
  · obtain ⟨⟨k, s⟩, hmem, hk⟩ := List.mem_map.mp he
    have hs := (mem_ingestRecords hmem).2
    subst hk
    simp [reportEntry, hs]
  · rw [ingestRecords_example]
    have hA : reportEntry "A" (Sensor.mk "A" (some 60) [10, 20, 30] false)
        = { id := "A", average := .ok 20, median := .ok 20, mode := [] } := by
      have h1 : (Sensor.mk "A" (some 60) [10, 20, 30] false).sortData.getAverage = .ok 20 := by
        decide!
      have h2 : (Sensor.mk "A" (some 60) [10, 20, 30] false).sortData.getMedian = .ok 20 := by
        decide!
      have h3 : (Sensor.mk "A" (some 60) [10, 20, 30] false).sortData.getModes = [] := by
        decide
      simp only [reportEntry, h1, h2, h3]
    have hB : reportEntry "B" (Sensor.mk "B" (some 5) [5] false)
        = { id := "B", average := .ok 5, median := .ok 5, mode := [] } := by
      have h1 : (Sensor.mk "B" (some 5) [5] false).sortData.getAverage = .ok 5 := by decide!
      have h2 : (Sensor.mk "B" (some 5) [5] false).sortData.getMedian = .ok 5 := by decide!
      have h3 : (Sensor.mk "B" (some 5) [5] false).sortData.getModes = [] := by decide
      simp only [reportEntry, h1, h2, h3]
    simp only [report, List.map_cons, List.map_nil, hA, hB]

/-- C12: for every sequence of records the report lists the sensors of the input, one
entry for each id that occurs in a record and no other, in strictly ascending order of
the string comparison, so that no id appears twice; and two inputs with the same set of
ids, in whatever order these first appear, give the same list of ids. -/
theorem report_ids_ascending :
    (∀ records : List (String × ℚ),
      (∀ id : String,
        id ∈ (report (ingestRecords records)).map (fun e => e.id) ↔ id ∈ records.map Prod.fst)
      ∧ ((report (ingestRecords records)).map (fun e => e.id)).Sorted (· < ·)
      ∧ ((report (ingestRecords records)).map (fun e => e.id)).Nodup)
    ∧ (∀ records₁ records₂ : List (String × ℚ),
      (∀ id : String, id ∈ records₁.map Prod.fst ↔ id ∈ records₂.map Prod.fst) →
      (report (ingestRecords records₁)).map (fun e => e.id)
        = (report (ingestRecords records₂)).map (fun e => e.id))
    ∧ (report (ingestRecords [("b", 1), ("B", 2), ("a", 3), ("b", 4)])).map (fun e => e.id)
        = ["B", "a", "b"] := by
  refine ⟨fun records => ⟨fun id => ?_, ?_, ?_⟩, fun records₁ records₂ h => ?_, ?_⟩
  · rw [report_ids]
    exact mem_keys_ingestRecords records id
  · rw [report_ids]
    exact sorted_ingestRecords records
  · rw [report_ids]
    exact (sorted_ingestRecords records).nodup
  · rw [report_ids, report_ids]
    apply List.eq_of_perm_of_sorted _ (sorted_ingestRecords records₁)
      (sorted_ingestRecords records₂)
    apply (List.perm_ext_iff_of_nodup (sorted_ingestRecords records₁).nodup
      (sorted_ingestRecords records₂).nodup).mpr
    intro id
    rw [mem_keys_ingestRecords, mem_keys_ingestRecords]
    exact h id
  · rw [report_ids]
    have h1 : ("B" : String) < "b" := by rw [String.lt_iff_toList_lt]; decide
    have h2 : ("a" : String) < "b" := by rw [String.lt_iff_toList_lt]; decide
    have h3 : ¬ ("a" : String) < "B" := by rw [String.lt_iff_toList_lt]; decide
    simp [ingestRecords, recordReading, SensorData.find, SensorData.insert,
      SensorData.modify, h1, h2, h3]

theorem report_ids_ascending_witness :
    (report (ingestRecords [("B", 5), ("A", 10)])).map (fun e => e.id)
        = (report (ingestRecords [("A", 10), ("B", 5), ("A", 20)])).map (fun e => e.id)
    ∧ ((report (ingestRecords [("B", 5), ("A", 10)])).map (fun e => e.id)).Sorted (· < ·)
    ∧ ("A" ∈ (report (ingestRecords [("B", 5), ("A", 10)])).map (fun e => e.id)) :=
  ⟨report_ids_ascending.2.1 [("B", 5), ("A", 10)] [("A", 10), ("B", 5), ("A", 20)]
      (by intro id; simp; tauto),
   (report_ids_ascending.1 [("B", 5), ("A", 10)]).2.1,
   ((report_ids_ascending.1 [("B", 5), ("A", 10)]).1 "A").mpr (by simp)⟩

/-- C13: sensor ids are compared by exact string equality. For two different id strings
`s` and `t`, recording a reading under `s` leaves the accumulator stored under `t` as it
was, and when both ids occur in the input the registry holds two entries, one for each,
with the readings recorded under that id. -/
theorem recordReading_other_id (s t : String) (hne : s ≠ t) :
    (∀ (m : SensorData) (value : ℚ), (recordReading m s value).find t = m.find t)
    ∧ (∀ records : List (String × ℚ), s ∈ records.map Prod.fst → t ∈ records.map Prod.fst →
      ∃ a b : Sensor, (s, a) ∈ ingestRecords records ∧ (t, b) ∈ ingestRecords records
        ∧ (s, a) ≠ (t, b)
        ∧ a._temperatureReadings = temperaturesOf records s
        ∧ b._temperatureReadings = temperaturesOf records t) := by
  refine ⟨fun m value => find_recordReading_of_ne m hne value, fun records hs ht => ?_⟩
  have hs' : temperaturesOf records s ≠ [] := fun e =>
    (temperaturesOf_eq_nil_iff records s).mp e hs
  have ht' : temperaturesOf records t ≠ [] := fun e =>
    (temperaturesOf_eq_nil_iff records t).mp e ht
  have hfs := find_ingestRecords records s
  have hft := find_ingestRecords records t
  simp only [hs', if_false] at hfs
  simp only [ht', if_false] at hft
  refine ⟨_, _, SensorData.mem_of_find _ _ _ hfs, SensorData.mem_of_find _ _ _ hft, ?_, ?_, ?_⟩
  · intro e
    exact hne (congrArg Prod.fst e)
  · simp [Sensor.ingest_readings, Sensor.new]
  · simp [Sensor.ingest_readings, Sensor.new]

theorem recordReading_other_id_witness :
    ("a" : String) ≠ "A"
    ∧ (recordReading [("A", Sensor.mk "A" (some 2) [2] false)] "a" 1).find "A"
        = some (Sensor.mk "A" (some 2) [2] false) :=
  ⟨by decide, (recordReading_other_id "a" "A" (by decide)).1 _ 1⟩

/-! ## Rounding, empty accumulators and the scan position -/

namespace Sensor

theorem length_sortData (s : Sensor) :
    (sortData s)._temperatureReadings.length = s._temperatureReadings.length := by
  unfold sortData
  split
  · exact (stdSort_perm s._temperatureReadings).length_eq
  · rfl

theorem floatResult_ne_divisionByZero (o : Option ℚ) :
    floatResult o ≠ .error .divisionByZero := by
  cases o <;> simp [floatResult]

theorem floatResult_ne_indexOutOfRange (o : Option ℚ) :
    floatResult o ≠ .error .indexOutOfRange := by
  cases o <;> simp [floatResult]

theorem getAverage_ne_divisionByZero (s : Sensor) (h0 : 0 < s._temperatureReadings.length) :
    getAverage s ≠ .error .divisionByZero := by
  have : s._temperatureReadings.length ≠ 0 := by omega
  unfold getAverage
  simp only [this, if_false]
  exact floatResult_ne_divisionByZero _

theorem getMedian_ne_indexOutOfRange (s : Sensor) (h0 : 0 < s._temperatureReadings.length) :
    getMedian s ≠ .error .indexOutOfRange := by
  have hhalf : s._temperatureReadings.length / 2 < s._temperatureReadings.length := by omega
  have hprev : sizeMinusOne s._temperatureReadings.length / 2
      < s._temperatureReadings.length := by
    unfold sizeMinusOne
    omega
  unfold getMedian
  by_cases hodd : s._temperatureReadings.length % 2 > 0
  · simp only [hodd, if_true, readingAt, List.getElem?_eq_getElem hhalf]
    exact floatResult_ne_indexOutOfRange _
  · simp only [hodd, if_false, readingAt, List.getElem?_eq_getElem hhalf,
      List.getElem?_eq_getElem hprev]
    exact floatResult_ne_indexOutOfRange _

/-- C16, as the code has it: on an accumulator that holds no reading `getAverage` divides
by zero and `getMedian` indexes the empty vector; neither reports a "no data" error. -/
theorem getAverage_getMedian_empty (s : Sensor) (h : s._temperatureReadings = []) :
    getAverage s = .error .divisionByZero ∧ getMedian s = .error .indexOutOfRange := by
  simp [getAverage, getMedian, readingAt, h]

theorem getAverage_getMedian_empty_witness :
    getAverage (Sensor.mk "B" (some 0) [] true) = .error .divisionByZero
    ∧ getMedian (Sensor.mk "B" (some 0) [] true) = .error .indexOutOfRange :=
  getAverage_getMedian_empty (Sensor.mk "B" (some 0) [] true) rfl

/-- C16 fails on the freshly constructed accumulator: its mean is the division `0 / 0`
and its median reads index `(2^64 - 1) / 2` of the empty vector. -/
theorem getAverage_getMedian_fresh :
    (new "A")._temperatureReadings = []
    ∧ getAverage (new "A") = .error .divisionByZero
    ∧ sizeMinusOne (new "A")._temperatureReadings.length / 2 = 9223372036854775807
    ∧ getMedian (new "A") = .error .indexOutOfRange := by
  refine ⟨rfl, by simp [getAverage, new], by simp [new, sizeMinusOne], ?_⟩
  simp [getMedian, readingAt, new]

/-- C17 (the code departs from it): in the sorted readings `[1, 2, 2]` the value `2` occurs
twice, and `getModes` returns the empty sequence. -/
theorem getModes_empty_despite_repeat :
    List.Sorted (· ≤ ·) ([1, 2, 2] : List ℚ)
    ∧ List.count (2 : ℚ) [1, 2, 2] = 2
    ∧ getModes (Sensor.mk "A" (some 5) [1, 2, 2] true) = [] := by
  refine ⟨by norm_num, by decide, by decide⟩

/-- C18: on sorted readings the sequence that `getModes` returns is strictly ascending, so
no value appears in it twice. -/
theorem getModes_ascending (s : Sensor) (hs : s._temperatureReadings.Sorted (· ≤ ·)) :
    (getModes s).Sorted (· < ·) ∧ (getModes s).Nodup :=
  ⟨modesOf_ascending _ hs, (modesOf_ascending _ hs).nodup⟩

theorem getModes_ascending_witness :
    getModes (Sensor.mk "A" (some 17) [1, 1, 2, 2, 2, 3, 3, 3] true) = [1, 2, 3]
    ∧ (getModes (Sensor.mk "A" (some 17) [1, 1, 2, 2, 2, 3, 3, 3] true)).Sorted (· < ·) :=
  ⟨by decide, (getModes_ascending (Sensor.mk "A" (some 17) [1, 1, 2, 2, 2, 3, 3, 3] true)
    (by norm_num)).1⟩

/-- C19 (the code departs from it): on the single reading `[1]` the outer loop of
`getModes` makes its last loop test at position 2, beyond the end position 1; on
`[1, 1, 2, 2]` at position 5, beyond the end position 4. -/
theorem modesScan_past_end :
    ([1] : List ℚ).length = 1 ∧ (modesScan [1]).i = 2
    ∧ ([1, 1, 2, 2] : List ℚ).length = 4 ∧ (modesScan [1, 1, 2, 2]).i = 5 := by
  refine ⟨rfl, by decide, rfl, by decide⟩

end Sensor

/-- C15: after any sequence of records every accumulator of the registry holds at least
one reading, so in the report loop the divisor of `getAverage` is not zero and the indices
`(n-1)/2` and `n/2` of `getMedian` are inside the readings: neither the division by zero
nor the index out of range occurs. -/
theorem ingestRecords_holds_reading (records : List (String × ℚ)) :
    ∀ e ∈ ingestRecords records,
      e.2._temperatureReadings ≠ []
      ∧ e.2.sortData._temperatureReadings.length ≠ 0
      ∧ Sensor.sizeMinusOne e.2.sortData._temperatureReadings.length / 2
          < e.2.sortData._temperatureReadings.length
      ∧ e.2.sortData._temperatureReadings.length / 2
          < e.2.sortData._temperatureReadings.length
      ∧ e.2.sortData.getAverage ≠ .error .divisionByZero
      ∧ e.2.sortData.getMedian ≠ .error .indexOutOfRange := by
  intro e he
  obtain ⟨k, s⟩ := e
  obtain ⟨hne, hs⟩ := mem_ingestRecords he
  dsimp only
  have hr : s._temperatureReadings = temperaturesOf records k := by
    rw [hs]
    simp [Sensor.ingest_readings, Sensor.new]
  have h0 : 0 < s._temperatureReadings.length := by
    rw [hr]
    exact List.length_pos.mpr hne
  have h1 : 0 < s.sortData._temperatureReadings.length := by
    rw [Sensor.length_sortData]
    exact h0
  refine ⟨by rw [hr]; exact hne, by omega, ?_, by omega,
    Sensor.getAverage_ne_divisionByZero _ h1, Sensor.getMedian_ne_indexOutOfRange _ h1⟩
  unfold Sensor.sizeMinusOne
  omega

theorem ingestRecords_holds_reading_witness :
    (("A", Sensor.mk "A" (some 60) [10, 20, 30] false) : String × Sensor)
        ∈ ingestRecords [("A", 10), ("A", 20), ("B", 5), ("A", 30)]
    ∧ (Sensor.mk "A" (some 60) [10, 20, 30] false)._temperatureReadings ≠ [] :=
  ⟨by rw [ingestRecords_example]; simp,
   (ingestRecords_holds_reading [("A", 10), ("A", 20), ("B", 5), ("A", 30)]
      ("A", Sensor.mk "A" (some 60) [10, 20, 30] false)
      (by rw [ingestRecords_example]; simp)).1⟩

end TDP
